import Mathlib

/-!
Shallow embedding of the TradeSphere analytics core.

The embedding follows the Python source:
* `src/etl/transform_trades.py` : `load_and_clean`, `summarize_counterparty`
* `src/notebook/analytics.py`   : `daily_pnl`, `historical_var`, `tableau_long_export`
* `src/app/dashboard.py`        : `apply_filters`

Tabular data is modelled as lists of records; real numbers as `ℚ`;
pandas missing values (`NaN`/`NaT`) as `Option`/an explicit `na` cell;
the not-a-number sentinel returned by `historical_var` as `none`.
Permissive parsing (`pd.to_datetime`/`pd.to_numeric` with
`errors="coerce"`) is modelled by parameters `pd_ : String → Option Date`
and `pn : String → Option ℚ`: a string either parses or becomes missing.
-/

namespace TradeSphere

/-- A calendar date (no time of day), with the calendar parts that the
cleaner extracts (`dt.year`, `dt.month`). -/
structure Date where
  year : ℕ
  month : ℕ
  day : ℕ
deriving DecidableEq, Repr

/-- Lexicographic order on dates. -/
def Date.le (a b : Date) : Prop :=
  a.year < b.year ∨ (a.year = b.year ∧
    (a.month < b.month ∨ (a.month = b.month ∧ a.day ≤ b.day)))

instance : DecidableRel Date.le := fun a b => by
  unfold Date.le; exact inferInstance

instance : IsTotal Date Date.le := ⟨by intro a b; unfold Date.le; omega⟩

instance : IsTrans Date Date.le := ⟨by intro a b c; unfold Date.le; omega⟩

/-- A raw table cell as produced by `pd.read_csv`: missing, a free-form
string, or an already-typed date / number. -/
inductive Cell where
  | na : Cell
  | str : String → Cell
  | date : Date → Cell
  | num : ℚ → Cell
deriving DecidableEq, Repr

/-- Model of `pd.to_datetime(_, errors="coerce")` on one cell: dates pass through,
strings are parsed permissively (an unparseable value becomes missing),
everything else coerces to missing. -/
def toDatetime (pd_ : String → Option Date) : Cell → Option Date
  | .date d => some d
  | .str s => pd_ s
  | .num _ => none
  | .na => none

/-- Model of `pd.to_numeric(_, errors="coerce")` on one cell: numbers pass through,
strings are parsed permissively, everything else coerces to missing. -/
def toNumeric (pn : String → Option ℚ) : Cell → Option ℚ
  | .num q => some q
  | .str s => pn s
  | .date _ => none
  | .na => none

/-- A raw trade record: the five categorical columns are taken verbatim
(missing or a string); the three coerced columns are raw cells. -/
structure RawRow where
  trade_id : Option String
  counterparty : Option String
  asset_class : Option String
  currency : Option String
  trade_type : Option String
  trade_date : Cell
  notional : Cell
  pnl : Cell
deriving DecidableEq, Repr

/-- A raw row after the three column coercions of `load_and_clean`. -/
structure CoercedRow where
  trade_id : Option String
  counterparty : Option String
  asset_class : Option String
  currency : Option String
  trade_type : Option String
  trade_date : Option Date
  notional : Option ℚ
  pnl : Option ℚ
deriving DecidableEq, Repr

/-- A cleaned trade record: the eight required columns, all present,
plus the derived columns `notional_mn`, `year`, `month`. -/
structure CleanRow where
  trade_id : String
  counterparty : String
  asset_class : String
  currency : String
  trade_type : String
  trade_date : Date
  notional : ℚ
  pnl : ℚ
  notional_mn : ℚ
  year : ℕ
  month : ℕ
deriving DecidableEq, Repr

/-- The required-column list `REQUIRED` of `transform_trades.py`. -/
def REQUIRED : List String :=
  ["trade_id", "counterparty", "asset_class", "currency", "trade_type",
   "trade_date", "notional", "pnl"]

/-- A raw dataset: the column names present in the file, and its rows. -/
structure RawDataset where
  cols : List String
  rows : List RawRow
deriving Repr

/-- The schema failure raised by `load_and_clean` when required columns
are absent (named `SchemaError` in the spec). -/
structure SchemaError where
  missing : List String
deriving DecidableEq, Repr

/-- The three column coercions of `load_and_clean`. -/
def coerceRow (pd_ : String → Option Date) (pn : String → Option ℚ)
    (r : RawRow) : CoercedRow where
  trade_id := r.trade_id
  counterparty := r.counterparty
  asset_class := r.asset_class
  currency := r.currency
  trade_type := r.trade_type
  trade_date := toDatetime pd_ r.trade_date
  notional := toNumeric pn r.notional
  pnl := toNumeric pn r.pnl

/-- Row predicate of `df.dropna(subset=REQUIRED)`: all eight required
fields present after coercion. -/
def rowValid (c : CoercedRow) : Bool :=
  c.trade_id.isSome && c.counterparty.isSome && c.asset_class.isSome &&
  c.currency.isSome && c.trade_type.isSome && c.trade_date.isSome &&
  c.notional.isSome && c.pnl.isSome

/-- Derivation of `notional_mn`, `year`, `month` on a (valid) coerced
row; only applied after the `rowValid` filter, so the defaults are
never visible. -/
def deriveRow (c : CoercedRow) : CleanRow where
  trade_id := c.trade_id.getD ""
  counterparty := c.counterparty.getD ""
  asset_class := c.asset_class.getD ""
  currency := c.currency.getD ""
  trade_type := c.trade_type.getD ""
  trade_date := c.trade_date.getD ⟨0, 0, 0⟩
  notional := c.notional.getD 0
  pnl := c.pnl.getD 0
  notional_mn := c.notional.getD 0 / 1000000
  year := (c.trade_date.getD ⟨0, 0, 0⟩).year
  month := (c.trade_date.getD ⟨0, 0, 0⟩).month

/-- The row pipeline of `load_and_clean` after the schema check:
coerce the three typed columns, drop invalid rows, derive the
auxiliary columns. -/
def cleanRows (pd_ : String → Option Date) (pn : String → Option ℚ)
    (rows : List RawRow) : List CleanRow :=
  ((rows.map (coerceRow pd_ pn)).filter rowValid).map deriveRow

/-- The cleaner `load_and_clean`: check the required columns are present (else raise),
then run the cleaning pipeline. -/
def load_and_clean (pd_ : String → Option Date) (pn : String → Option ℚ)
    (ds : RawDataset) : Except SchemaError (List CleanRow) :=
  let missing := REQUIRED.filter (fun c => !(ds.cols.contains c))
  if missing.isEmpty then .ok (cleanRows pd_ pn ds.rows)
  else .error ⟨missing⟩

/-- One row of the counterparty summary (`summarize_counterparty`). -/
structure CpSummary where
  counterparty : String
  total_exposure_mn : ℚ
  trades : ℕ
  pnl_total : ℚ
  pnl_avg : ℚ
deriving DecidableEq, Repr

/-- The descending-exposure order used by
`sort_values("total_exposure_mn", ascending=False)`. -/
def cpGe (a b : CpSummary) : Prop := b.total_exposure_mn ≤ a.total_exposure_mn

instance : DecidableRel cpGe := fun a b => by unfold cpGe; exact inferInstance

instance : IsTotal CpSummary cpGe :=
  ⟨by intro a b; unfold cpGe; exact le_total _ _⟩

instance : IsTrans CpSummary cpGe :=
  ⟨fun _ _ _ h h2 => le_trans h2 h⟩

/-- The rows of one `groupby("counterparty")` group. -/
def cpGroup (df : List CleanRow) (k : String) : List CleanRow :=
  df.filter (fun r => r.counterparty == k)

/-- The aggregates `.agg(...)` emits for one counterparty group:
sum of `notional_mn`, count of `trade_id` (every row counts, since
`trade_id` is never null in cleaned data), sum and mean of `pnl`. -/
def mkCpSummary (df : List CleanRow) (k : String) : CpSummary where
  counterparty := k
  total_exposure_mn := ((cpGroup df k).map (·.notional_mn)).sum
  trades := (cpGroup df k).length
  pnl_total := ((cpGroup df k).map (·.pnl)).sum
  pnl_avg := ((cpGroup df k).map (·.pnl)).sum / (cpGroup df k).length

/-- The distinct counterparty keys, in the ascending key order pandas
`groupby` uses by default. -/
def cpKeys (df : List CleanRow) : List String :=
  List.insertionSort (· ≤ ·) (df.map (·.counterparty)).dedup

/-- The aggregator `summarize_counterparty`: group by counterparty, aggregate, and sort
by total exposure descending. -/
def summarize_counterparty (df : List CleanRow) : List CpSummary :=
  List.insertionSort cpGe ((cpKeys df).map (mkCpSummary df))

/-- One row of the daily-P&L series. -/
structure DailyPnl where
  trade_date : Date
  pnl_total : ℚ
deriving DecidableEq, Repr

/-- The aggregator `daily_pnl`: group by `trade_date`, sum `pnl`, sort ascending by
date (pandas already yields group keys ascending; the extra
`sort_values("trade_date")` is a no-op). -/
def daily_pnl (df : List CleanRow) : List DailyPnl :=
  (List.insertionSort Date.le (df.map (·.trade_date)).dedup).map
    (fun d => { trade_date := d
                pnl_total := ((df.filter (fun r => r.trade_date == d)).map (·.pnl)).sum })

/-- Model of `Series.tail(n)`: the last `n` entries (fewer if shorter). -/
def tailN (n : ℕ) (l : List α) : List α := l.drop (l.length - n)

/-- Model of `np.quantile(xs, q)` with the default linear interpolation between
order statistics: with the values sorted ascending, `h = q·(n−1)`,
`i = ⌊h⌋`, and the result interpolates between `v[i]` and
`v[min(i+1, n−1)]`. -/
def quantile (xs : List ℚ) (q : ℚ) : ℚ :=
  let v := List.insertionSort (· ≤ ·) xs
  let n := v.length
  let h : ℚ := q * ((n : ℚ) - 1)
  let i : ℕ := (⌊h⌋).toNat
  let g : ℚ := h - (i : ℚ)
  let a := v.getD i 0
  let b := v.getD (min (i + 1) (n - 1)) 0
  a + g * (b - a)

/-- The estimator `historical_var`: drop missing values, keep the last `lookback`
valid observations, return the not-a-number sentinel (`none`) when
fewer than 5 remain, else the negated empirical `(1 − α)` quantile. -/
def historical_var (pnl_series : List (Option ℚ)) (alpha : ℚ) (lookback : ℕ) :
    Option ℚ :=
  let s := tailN lookback (pnl_series.filterMap id)
  if s.length < 5 then none
  else some (-(quantile s (1 - alpha)))

/-- The estimator the claim describes: take the last `lookback` entries
of the series FIRST, and only then drop missing values. This follows
the wording of the claim; `historical_var` above follows the code, which
applies `dropna()` before `tail(lookback)`. -/
def historical_var_claimed (pnl_series : List (Option ℚ)) (alpha : ℚ)
    (lookback : ℕ) : Option ℚ :=
  let s := (tailN lookback pnl_series).filterMap id
  if s.length < 5 then none
  else some (-(quantile s (1 - alpha)))

/-- Zero-padded two-digit month, for the `yyyymm` period string. -/
def fmt2 (n : ℕ) : String := if n < 10 then "0" ++ toString n else toString n

/-- Month period string, as `trade_date.dt.to_period("M").astype(str)`. -/
def yyyymmOf (d : Date) : String := toString d.year ++ "-" ++ fmt2 d.month

/-- One row of the tidy/long export. -/
structure LongRow where
  trade_date : Date
  yyyymm : String
  counterparty : String
  asset_class : String
  currency : String
  trade_type : String
  metric : String
  value : ℚ
deriving DecidableEq, Repr

/-- One melted `(metric, value)` row for a given measure. -/
def meltRow (metric : String) (f : CleanRow → ℚ) (r : CleanRow) : LongRow where
  trade_date := r.trade_date
  yyyymm := yyyymmOf r.trade_date
  counterparty := r.counterparty
  asset_class := r.asset_class
  currency := r.currency
  trade_type := r.trade_type
  metric := metric
  value := f r

/-- The exporter `tableau_long_export`: `pd.melt` with the three numeric measures as
`value_vars`, which stacks one block of rows per measure. -/
def tableau_long_export (df : List CleanRow) : List LongRow :=
  df.map (meltRow "notional" (·.notional)) ++
  df.map (meltRow "notional_mn" (·.notional_mn)) ++
  df.map (meltRow "pnl" (·.pnl))

/-- The dashboard filter `apply_filters`: date-range mask, then conjoin the
counterparty mask only when the selection list is non-empty (`if cps:`),
likewise for asset class. -/
def apply_filters (df : List CleanRow) (d1 d2 : Date)
    (cps acs : List String) : List CleanRow :=
  df.filter fun r =>
    let m := decide (Date.le d1 r.trade_date) && decide (Date.le r.trade_date d2)
    let m := if cps.isEmpty then m else m && cps.contains r.counterparty
    let m := if acs.isEmpty then m else m && acs.contains r.asset_class
    m

/-- The filter predicate as the claim states it: date in range, and each
dimension restricted only when its include-list is non-empty (an empty
selection means all values). -/
def filterPredClaimed (d1 d2 : Date) (cps acs : List String)
    (r : CleanRow) : Bool :=
  decide (Date.le d1 r.trade_date) && decide (Date.le r.trade_date d2) &&
  (cps.isEmpty || cps.contains r.counterparty) &&
  (acs.isEmpty || acs.contains r.asset_class)

/-- Re-feeding a cleaned row to the cleaner: the cleaned CSV is read
back, so every categorical field is a present string and the coerced
fields are already-typed date/number cells. -/
def cleanedToRaw (r : CleanRow) : RawRow where
  trade_id := some r.trade_id
  counterparty := some r.counterparty
  asset_class := some r.asset_class
  currency := some r.currency
  trade_type := some r.trade_type
  trade_date := .date r.trade_date
  notional := .num r.notional
  pnl := .num r.pnl

/-- Column list of a written-out cleaned dataset: the eight required
columns plus the derived ones. -/
def CLEANED_COLS : List String := REQUIRED ++ ["notional_mn", "year", "month"]

/-! Concrete fixture data used by the witnesses. -/

/-- A date parser recognising a single fixture date. -/
def pdEx : String → Option Date :=
  fun s => if s = "2024-05-17" then some ⟨2024, 5, 17⟩ else none

/-- A numeric parser recognising a single fixture value. -/
def pnEx : String → Option ℚ :=
  fun s => if s = "150" then some 150 else none

/-- A well-formed raw trade record. -/
def rawEx1 : RawRow where
  trade_id := some "T1"
  counterparty := some "Bank A"
  asset_class := some "Equity"
  currency := some "USD"
  trade_type := some "Buy"
  trade_date := .date ⟨2024, 5, 17⟩
  notional := .num 2000000
  pnl := .num 150

/-- A second well-formed raw trade record. -/
def rawEx2 : RawRow where
  trade_id := some "T2"
  counterparty := some "Bank B"
  asset_class := some "Bond"
  currency := some "EUR"
  trade_type := some "Sell"
  trade_date := .date ⟨2024, 5, 18⟩
  notional := .num 1000000
  pnl := .num (-50)

/-- A raw record whose `trade_date` does not parse. -/
def rawBadDate : RawRow where
  trade_id := some "T3"
  counterparty := some "Bank C"
  asset_class := some "FX"
  currency := some "GBP"
  trade_type := some "Buy"
  trade_date := .str "not-a-date"
  notional := .num 500000
  pnl := .num 10

/-- The cleaned image of `rawEx1`. -/
def cleanEx1 : CleanRow := deriveRow (coerceRow pdEx pnEx rawEx1)

/-- The cleaned image of `rawEx2`. -/
def cleanEx2 : CleanRow := deriveRow (coerceRow pdEx pnEx rawEx2)

/-- A small cleaned dataset fixture. -/
def dfEx : List CleanRow := cleanRows pdEx pnEx [rawEx1, rawEx2, rawBadDate]

/-! Helper lemmas shared by the claim theorems. -/

/-- Every row output by the cleaning pipeline carries the derived
columns computed from its own `notional` and `trade_date`. -/
theorem mem_cleanRows_derived (pd_ : String → Option Date)
    (pn : String → Option ℚ) (rows : List RawRow) (r : CleanRow)
    (h : r ∈ cleanRows pd_ pn rows) :
    r.notional_mn = r.notional / 1000000 ∧
    r.year = r.trade_date.year ∧ r.month = r.trade_date.month := by
  unfold cleanRows at h
  rcases List.mem_map.mp h with ⟨c, _, rfl⟩
  exact ⟨rfl, rfl, rfl⟩

/-- C3: `load_and_clean` fails with a `SchemaError` if and only if some
required column is absent from the input columns; with all eight
present no schema error is raised. -/
theorem load_and_clean_schema_error_iff (pd_ : String → Option Date)
    (pn : String → Option ℚ) (ds : RawDataset) :
    (∃ e, load_and_clean pd_ pn ds = .error e) ↔
      ∃ c ∈ REQUIRED, c ∉ ds.cols := by
  unfold load_and_clean
  by_cases h : (REQUIRED.filter (fun c => !(ds.cols.contains c))).isEmpty
  · simp only [h, if_pos]
    rw [List.isEmpty_iff, List.filter_eq_nil_iff] at h
    simp only [reduceCtorEq, exists_false, false_iff]
    rintro ⟨c, hc, hnot⟩
    exact hnot (by simpa using h c hc)
  · rw [if_neg h]
    rw [List.isEmpty_iff, List.filter_eq_nil_iff] at h
    push_neg at h
    constructor
    · intro _
      rcases h with ⟨c, hc, hb⟩
      refine ⟨c, hc, ?_⟩
      intro hmem
      simp [hmem] at hb
    · intro _
      exact ⟨_, rfl⟩

/-- C6: in every cleaned dataset, `notional_mn` equals
`notional / 1,000,000` exactly for every row; it is derived during
cleaning, never taken from the input. -/
theorem cleanRows_notional_mn (pd_ : String → Option Date)
    (pn : String → Option ℚ) (rows : List RawRow) (r : CleanRow)
    (h : r ∈ cleanRows pd_ pn rows) :
    r.notional_mn = r.notional / 1000000 :=
  (mem_cleanRows_derived pd_ pn rows r h).1

/-- Witness for C6 at the concrete fixture row. -/
theorem cleanRows_notional_mn_witness :
    cleanEx1.notional_mn = cleanEx1.notional / 1000000 :=
  cleanRows_notional_mn pdEx pnEx [rawEx1] cleanEx1 (by
    show cleanEx1 ∈ cleanRows pdEx pnEx [rawEx1]
    have : cleanRows pdEx pnEx [rawEx1] = [cleanEx1] := rfl
    rw [this]
    exact List.mem_singleton_self cleanEx1)

/-- C7: the tidy/long export has exactly three times as many rows as the
cleaned dataset — one output row per (original row, measure) pair. -/
theorem tableau_long_export_length (df : List CleanRow) :
    (tableau_long_export df).length = 3 * df.length := by
  simp [tableau_long_export]
  ring

/-- C10: the dashboard filter keeps exactly the rows whose `trade_date`
lies in the inclusive range and whose counterparty / asset class is in
the corresponding include-list whenever that list is non-empty; an
empty selection imposes no restriction on that dimension. -/
theorem apply_filters_spec (df : List CleanRow) (d1 d2 : Date)
    (cps acs : List String) :
    apply_filters df d1 d2 cps acs =
      df.filter (filterPredClaimed d1 d2 cps acs) := by
  unfold apply_filters filterPredClaimed
  apply List.filter_congr
  intro r _
  cases hc : cps.isEmpty <;> cases ha : acs.isEmpty <;>
    simp [hc, ha, Bool.and_assoc]

/-- An `Option` that is present is recovered unchanged by `getD`. -/
theorem opt_eq_some_getD {α : Type} (o : Option α) (d : α)
    (h : o.isSome = true) : o = some (o.getD d) := by
  cases o with
  | none => simp at h
  | some v => rfl

/-- C2: the cleaner coerces `trade_date`, `notional`, `pnl` permissively
and then drops a row exactly when one of the eight required fields is
missing post-coercion; the field values of every surviving row pass
through unaltered. -/
theorem cleanRows_drop_policy (pd_ : String → Option Date)
    (pn : String → Option ℚ) :
    (∀ rows : List RawRow,
      cleanRows pd_ pn rows =
        (rows.filter (fun r => rowValid (coerceRow pd_ pn r))).map
          (fun r => deriveRow (coerceRow pd_ pn r)))
    ∧ (∀ c : CoercedRow, rowValid c = true ↔
        (c.trade_id ≠ none ∧ c.counterparty ≠ none ∧ c.asset_class ≠ none ∧
         c.currency ≠ none ∧ c.trade_type ≠ none ∧ c.trade_date ≠ none ∧
         c.notional ≠ none ∧ c.pnl ≠ none))
    ∧ (∀ c : CoercedRow, rowValid c = true →
        (c.trade_id = some (deriveRow c).trade_id ∧
         c.counterparty = some (deriveRow c).counterparty ∧
         c.asset_class = some (deriveRow c).asset_class ∧
         c.currency = some (deriveRow c).currency ∧
         c.trade_type = some (deriveRow c).trade_type ∧
         c.trade_date = some (deriveRow c).trade_date ∧
         c.notional = some (deriveRow c).notional ∧
         c.pnl = some (deriveRow c).pnl)) := by
  refine ⟨?_, ?_, ?_⟩
  · intro rows
    unfold cleanRows
    rw [List.filter_map, List.map_map]
    rfl
  · intro c
    simp [rowValid, Bool.and_eq_true, Option.isSome_iff_ne_none]
    tauto
  · intro c hv
    simp only [rowValid, Bool.and_eq_true] at hv
    obtain ⟨⟨⟨⟨⟨⟨⟨h1, h2⟩, h3⟩, h4⟩, h5⟩, h6⟩, h7⟩, h8⟩ := hv
    exact ⟨opt_eq_some_getD _ _ h1, opt_eq_some_getD _ _ h2,
           opt_eq_some_getD _ _ h3, opt_eq_some_getD _ _ h4,
           opt_eq_some_getD _ _ h5, opt_eq_some_getD _ _ h6,
           opt_eq_some_getD _ _ h7, opt_eq_some_getD _ _ h8⟩

/-- Witness for C2: the preservation clause applied to the concrete
coerced fixture row, and the drop clause at a row with an unparseable
`trade_date`. -/
theorem cleanRows_drop_policy_witness :
    (coerceRow pdEx pnEx rawEx1).trade_date =
      some (deriveRow (coerceRow pdEx pnEx rawEx1)).trade_date ∧
    rowValid (coerceRow pdEx pnEx rawBadDate) = false := by
  constructor
  · exact ((cleanRows_drop_policy pdEx pnEx).2.2 (coerceRow pdEx pnEx rawEx1) rfl).2.2.2.2.2.1
  · rfl

/-- C1 counterexample: the claim orders the steps as tail-then-dropna,
but the code drops missing values first and then takes the trailing
window. On a series whose last five entries are all missing the claimed
estimator returns the sentinel while the code returns a value. -/
theorem historical_var_order_counterexample :
    historical_var
        [some 0, some 10, some 20, some (-30), some 40,
         none, none, none, none, none] (95/100) 5 = some 24 ∧
    historical_var_claimed
        [some 0, some 10, some 20, some (-30), some 40,
         none, none, none, none, none] (95/100) 5 = none := by
  constructor
  · norm_num [historical_var, tailN, quantile, List.insertionSort,
      List.orderedInsert, List.filterMap_cons, List.filterMap_nil]
  · rfl

/-- C1 (amended): the historical VaR estimator first drops missing
values from the date-sorted series and then takes the last `W` valid
observations (fewer if the series is shorter); if fewer than 5 remain
it returns the not-a-number sentinel, and otherwise the negated
empirical `(1 − α)` quantile with linear interpolation between order
statistics; for the P&L values `[-100, -50, 0, 50, 100]` with lookback
≥ 5 and α = 0.95 it returns 90. -/
theorem historical_var_correct :
    (∀ (pnl : List (Option ℚ)) (alpha : ℚ) (lookback : ℕ),
      historical_var pnl alpha lookback =
        (if (tailN lookback (pnl.filterMap id)).length < 5 then none
         else some (-(quantile (tailN lookback (pnl.filterMap id)) (1 - alpha)))))
    ∧ (∀ (pnl : List (Option ℚ)) (alpha : ℚ) (lookback : ℕ),
        (pnl.filterMap id).length < 5 → historical_var pnl alpha lookback = none)
    ∧ (∀ lookback : ℕ, 5 ≤ lookback →
        historical_var ([-100, -50, 0, 50, 100].map some) (95/100) lookback
          = some 90) := by
  refine ⟨fun _ _ _ => rfl, ?_, ?_⟩
  · intro pnl alpha lookback hlen
    unfold historical_var tailN
    rw [if_pos]
    rw [List.length_drop]
    omega
  · intro lookback hlb
    have hfm : (([-100, -50, 0, 50, 100].map some).filterMap id)
        = ([-100, -50, 0, 50, 100] : List ℚ) := by
      simp
    have htail : tailN lookback (([-100, -50, 0, 50, 100].map some).filterMap id)
        = ([-100, -50, 0, 50, 100] : List ℚ) := by
      unfold tailN
      rw [hfm]
      have : ([-100, -50, 0, 50, 100] : List ℚ).length - lookback = 0 := by
        simp only [List.length_cons, List.length_nil]
        omega
      rw [this, List.drop_zero]
    unfold historical_var
    rw [htail]
    norm_num [quantile, List.insertionSort, List.orderedInsert]

/-- Witness for C1: the amended theorem instantiated at a short series
and at the concrete [-100, -50, 0, 50, 100] scenario with the default
60-day lookback of the code. -/
theorem historical_var_correct_witness :
    historical_var [some 1] (1/2) 3 = none ∧
    historical_var ([-100, -50, 0, 50, 100].map some) (95/100) 60 = some 90 :=
  ⟨historical_var_correct.2.1 [some 1] (1/2) 3 (by simp),
   historical_var_correct.2.2 60 (by norm_num)⟩

/-- Re-cleaning a list of rows that satisfy the cleaned-data invariants
is the identity: every field coerces to itself, no row is dropped, and
the derived columns recompute to their existing values. -/
theorem cleanRows_map_cleanedToRaw (pd_ : String → Option Date)
    (pn : String → Option ℚ) (l : List CleanRow)
    (hinv : ∀ r ∈ l, r.notional_mn = r.notional / 1000000 ∧
      r.year = r.trade_date.year ∧ r.month = r.trade_date.month) :
    cleanRows pd_ pn (l.map cleanedToRaw) = l := by
  induction l with
  | nil => rfl
  | cons r t ih =>
    obtain ⟨hmn, hyr, hmo⟩ := hinv r (List.mem_cons_self r t)
    have ht := ih (fun x hx => hinv x (List.mem_cons_of_mem r hx))
    unfold cleanRows at ht ⊢
    simp only [List.map_cons, List.filter_cons]
    have hval : rowValid (coerceRow pd_ pn (cleanedToRaw r)) = true := rfl
    rw [hval]
    simp only [if_pos, List.map_cons, ht]
    congr 1
    cases r
    simp only [cleanedToRaw, coerceRow, toDatetime, toNumeric, deriveRow,
      Option.getD_some] at *
    simp_all

/-- C9: cleaning is idempotent — feeding the cleaned output (its eight
required columns plus the derived `notional_mn`, `year`, `month`) back
through `load_and_clean` drops no rows and returns it unchanged. -/
theorem load_and_clean_idempotent (pd_ : String → Option Date)
    (pn : String → Option ℚ) (rows : List RawRow) :
    load_and_clean pd_ pn
        ⟨CLEANED_COLS, (cleanRows pd_ pn rows).map cleanedToRaw⟩
      = .ok (cleanRows pd_ pn rows) := by
  unfold load_and_clean
  have hschema :
      (REQUIRED.filter (fun c => !((CLEANED_COLS : List String).contains c))).isEmpty
        = true := by decide
  rw [if_pos hschema]
  congr 1
  exact cleanRows_map_cleanedToRaw pd_ pn _
    (fun r hr => mem_cleanRows_derived pd_ pn rows r hr)

/-- Splitting a sum over a list by a Boolean predicate. -/
theorem sum_map_filter_add (p : CleanRow → Bool) (f : CleanRow → ℚ)
    (l : List CleanRow) :
    ((l.filter p).map f).sum + ((l.filter (fun a => !(p a))).map f).sum
      = (l.map f).sum := by
  induction l with
  | nil => simp
  | cons a t ih =>
    cases h : p a <;> simp [List.filter_cons, h] <;> rw [← ih] <;> ring

/-- Summing per-counterparty group sums over a duplicate-free key list
that covers every row gives the grand total: the groups partition the
rows exhaustively and without overlap. -/
theorem sum_group_sums (f : CleanRow → ℚ) (keys : List String) :
    ∀ df : List CleanRow, keys.Nodup →
      (∀ r ∈ df, r.counterparty ∈ keys) →
      (keys.map (fun k =>
          ((df.filter (fun r => r.counterparty == k)).map f).sum)).sum
        = (df.map f).sum := by
  induction keys with
  | nil =>
    intro df _ hcov
    have : df = [] := by
      rw [List.eq_nil_iff_forall_not_mem]
      intro r hr
      exact (List.not_mem_nil _) (hcov r hr)
    simp [this]
  | cons k ks ih =>
    intro df hnd hcov
    have hknotin : k ∉ ks := (List.nodup_cons.mp hnd).1
    have hksnd : ks.Nodup := (List.nodup_cons.mp hnd).2
    simp only [List.map_cons, List.sum_cons]
    have hsplit := sum_map_filter_add (fun r => r.counterparty == k) f df
    have hrest : ∀ k' ∈ ks,
        df.filter (fun r => r.counterparty == k') =
          (df.filter (fun r => !(r.counterparty == k))).filter
            (fun r => r.counterparty == k') := by
      intro k' hk'
      have hne : k' ≠ k := by
        rintro rfl
        exact hknotin hk'
      rw [List.filter_filter]
      apply List.filter_congr
      intro r _
      cases h : (r.counterparty == k') with
      | false => rfl
      | true =>
        have : r.counterparty = k' := by simpa using h
        simp [this, hne]
    have hmapeq :
        (ks.map (fun k' =>
            ((df.filter (fun r => r.counterparty == k')).map f).sum))
          = (ks.map (fun k' =>
              (((df.filter (fun r => !(r.counterparty == k))).filter
                  (fun r => r.counterparty == k')).map f).sum)) := by
      apply List.map_congr_left
      intro k' hk'
      rw [hrest k' hk']
    rw [hmapeq]
    rw [ih (df.filter (fun r => !(r.counterparty == k))) hksnd ?_]
    · rw [← hsplit]
    · intro r hr
      rcases List.mem_filter.mp hr with ⟨hrdf, hrne⟩
      have := hcov r hrdf
      rcases List.mem_cons.mp this with h | h
      · exfalso
        simp [h] at hrne
      · exact h

/-- C8: the counterparty-summary exposures add up to the total
`notional_mn` of the cleaned dataset — grouping by counterparty
partitions the rows exhaustively and without overlap. -/
theorem summarize_counterparty_total (df : List CleanRow) :
    ((summarize_counterparty df).map (·.total_exposure_mn)).sum
      = (df.map (·.notional_mn)).sum := by
  have h1 : (summarize_counterparty df).Perm
      ((cpKeys df).map (mkCpSummary df)) :=
    List.perm_insertionSort cpGe _
  rw [(h1.map (·.total_exposure_mn)).sum_eq, List.map_map]
  have h2 : (cpKeys df).Perm (df.map (·.counterparty)).dedup :=
    List.perm_insertionSort _ _
  rw [(h2.map ((·.total_exposure_mn) ∘ mkCpSummary df)).sum_eq]
  have h3 : ((df.map (·.counterparty)).dedup.map
      ((·.total_exposure_mn) ∘ mkCpSummary df))
      = ((df.map (·.counterparty)).dedup.map (fun k =>
          ((df.filter (fun r => r.counterparty == k)).map (·.notional_mn)).sum)) := by
    apply List.map_congr_left
    intro k _
    rfl
  rw [h3]
  exact sum_group_sums (·.notional_mn) (df.map (·.counterparty)).dedup df
    (List.nodup_dedup _)
    (fun r hr => List.mem_dedup.mpr (List.mem_map.mpr ⟨r, hr, rfl⟩))

/-- C4: the counterparty summary has one row per distinct counterparty
occurring in the data (none added, none missing), each row aggregating
the rows of that counterparty — exposure and P&L sums over every matching
row, a count of all rows (not distinct `trade_id`s), and the mean P&L —
and the result is sorted by total exposure descending. -/
theorem summarize_counterparty_spec (df : List CleanRow) :
    ((summarize_counterparty df).map (·.counterparty)).Perm
      (df.map (·.counterparty)).dedup
    ∧ (∀ s ∈ summarize_counterparty df,
        s.total_exposure_mn =
          ((df.filter (fun r => r.counterparty == s.counterparty)).map
            (·.notional_mn)).sum ∧
        s.trades =
          (df.filter (fun r => r.counterparty == s.counterparty)).length ∧
        s.pnl_total =
          ((df.filter (fun r => r.counterparty == s.counterparty)).map
            (·.pnl)).sum ∧
        s.pnl_avg = s.pnl_total / (s.trades : ℚ))
    ∧ List.Sorted cpGe (summarize_counterparty df) := by
  refine ⟨?_, ?_, ?_⟩
  · have h1 : (summarize_counterparty df).Perm
        ((cpKeys df).map (mkCpSummary df)) := List.perm_insertionSort cpGe _
    have h2 := h1.map (·.counterparty)
    rw [List.map_map] at h2
    have h3 : (cpKeys df).map ((·.counterparty) ∘ mkCpSummary df)
        = cpKeys df := by
      rw [show ((·.counterparty) ∘ mkCpSummary df) = fun k => k from rfl]
      exact List.map_id _
    rw [h3] at h2
    exact h2.trans (List.perm_insertionSort _ _)
  · intro s hs
    have h1 : (summarize_counterparty df).Perm
        ((cpKeys df).map (mkCpSummary df)) := List.perm_insertionSort cpGe _
    rcases List.mem_map.mp (h1.mem_iff.mp hs) with ⟨k, _, rfl⟩
    exact ⟨rfl, rfl, rfl, rfl⟩
  · exact List.sorted_insertionSort cpGe _

/-- Witness for C4: the aggregate clause at the fixture dataset and its
"Bank A" summary row. -/
theorem summarize_counterparty_spec_witness :
    (mkCpSummary dfEx "Bank A").total_exposure_mn =
      ((dfEx.filter (fun r =>
          r.counterparty == (mkCpSummary dfEx "Bank A").counterparty)).map
        (·.notional_mn)).sum ∧
    (mkCpSummary dfEx "Bank A").trades =
      (dfEx.filter (fun r =>
          r.counterparty == (mkCpSummary dfEx "Bank A").counterparty)).length ∧
    (mkCpSummary dfEx "Bank A").pnl_total =
      ((dfEx.filter (fun r =>
          r.counterparty == (mkCpSummary dfEx "Bank A").counterparty)).map
        (·.pnl)).sum ∧
    (mkCpSummary dfEx "Bank A").pnl_avg =
      (mkCpSummary dfEx "Bank A").pnl_total /
        ((mkCpSummary dfEx "Bank A").trades : ℚ) :=
  (summarize_counterparty_spec dfEx).2.1 (mkCpSummary dfEx "Bank A") (by
    unfold summarize_counterparty
    rw [List.mem_insertionSort]
    exact List.mem_map.mpr ⟨"Bank A", by
      unfold cpKeys
      rw [List.mem_insertionSort, List.mem_dedup]
      exact List.mem_map.mpr ⟨cleanEx1, List.mem_cons_self _ _, rfl⟩, rfl⟩)

/-- C5: the daily P&L series has one row per distinct `trade_date`
occurring in the data, each summing the `pnl` of that date; it is sorted
ascending by date, and dates with no trades do not appear. -/
theorem daily_pnl_spec (df : List CleanRow) :
    ((daily_pnl df).map (·.trade_date)).Perm (df.map (·.trade_date)).dedup
    ∧ (∀ p ∈ daily_pnl df,
        p.pnl_total =
          ((df.filter (fun r => r.trade_date == p.trade_date)).map (·.pnl)).sum
        ∧ ∃ r ∈ df, r.trade_date = p.trade_date)
    ∧ List.Sorted (fun a b => Date.le a.trade_date b.trade_date)
        (daily_pnl df) := by
  refine ⟨?_, ?_, ?_⟩
  · unfold daily_pnl
    rw [List.map_map]
    have h3 : (List.insertionSort Date.le (df.map (·.trade_date)).dedup).map
          ((·.trade_date) ∘ fun d =>
            ({ trade_date := d
               pnl_total := ((df.filter (fun r => r.trade_date == d)).map
                 (·.pnl)).sum } : DailyPnl))
        = List.insertionSort Date.le (df.map (·.trade_date)).dedup := by
      rw [show ((·.trade_date) ∘ fun d =>
          ({ trade_date := d
             pnl_total := ((df.filter (fun r => r.trade_date == d)).map
               (·.pnl)).sum } : DailyPnl)) = fun d => d from rfl]
      exact List.map_id _
    rw [h3]
    exact List.perm_insertionSort _ _
  · intro p hp
    unfold daily_pnl at hp
    rcases List.mem_map.mp hp with ⟨d, hd, rfl⟩
    refine ⟨rfl, ?_⟩
    rw [List.mem_insertionSort, List.mem_dedup] at hd
    rcases List.mem_map.mp hd with ⟨r, hr, hrd⟩
    exact ⟨r, hr, hrd⟩
  · unfold daily_pnl
    exact List.Pairwise.map _ (fun a b h => h)
      (List.sorted_insertionSort Date.le _)

/-- Witness for C5: the aggregate clause at the fixture dataset and its
row of its first date. -/
theorem daily_pnl_spec_witness :
    ({ trade_date := (⟨2024, 5, 17⟩ : Date)
       pnl_total := ((dfEx.filter (fun r =>
           r.trade_date == (⟨2024, 5, 17⟩ : Date))).map (·.pnl)).sum } :
        DailyPnl).pnl_total =
      ((dfEx.filter (fun r =>
          r.trade_date ==
            ({ trade_date := (⟨2024, 5, 17⟩ : Date)
               pnl_total := ((dfEx.filter (fun r =>
                   r.trade_date == (⟨2024, 5, 17⟩ : Date))).map (·.pnl)).sum } :
                DailyPnl).trade_date)).map (·.pnl)).sum ∧
    ∃ r ∈ dfEx, r.trade_date =
      ({ trade_date := (⟨2024, 5, 17⟩ : Date)
         pnl_total := ((dfEx.filter (fun r =>
             r.trade_date == (⟨2024, 5, 17⟩ : Date))).map (·.pnl)).sum } :
          DailyPnl).trade_date :=
  (daily_pnl_spec dfEx).2.1 _ (by
    unfold daily_pnl
    exact List.mem_map.mpr ⟨⟨2024, 5, 17⟩, by
      rw [List.mem_insertionSort, List.mem_dedup]
      exact List.mem_map.mpr ⟨cleanEx1, List.mem_cons_self _ _, rfl⟩, rfl⟩)

end TradeSphere
